import Mathlib

/-!
Verification of the threaded comment engine (Blog-Backend).

The definitions below are a shallow embedding of:
- `backend/models/Comment.js` (the Comment schema and its `voteScore` virtual),
- `backend/controllers/comment.controller.js` (the REST transport:
  `createComment`, `updateComment`, `deleteComment`, `voteComment`),
- `backend/sockets/commentHandler.js` (the socket transport: the
  `new-comment`, `update-comment`, `delete-comment`, `vote-comment` handlers),
- `src/components/blog/CommentSection.tsx` (the client reconciler's
  `comment-created` listener).

Mongo document ids and user ids are modelled as `Nat`; timestamps are passed
in explicitly as `Nat` parameters (the code uses `Date.now`); the Mongo
collection is a `List Comment`; `findById` is `List.find?` on the id field and
`save` of an already-stored document replaces the entry with the same id.
Response bodies beyond the HTTP status code are not modelled; socket error
emissions are modelled by their message string.
-/

set_option autoImplicit false

namespace BlogBackend

/-- One document of the `Comment` collection (`backend/models/Comment.js`):
content, author, blog, nullable parentComment, the two vote-ledger arrays,
isEdited and the two timestamps. -/
structure Comment where
  id : Nat
  content : String
  author : Nat
  blog : Nat
  parentComment : Option Nat
  upvotes : List Nat
  downvotes : List Nat
  isEdited : Bool
  createdAt : Nat
  updatedAt : Nat
deriving DecidableEq, Repr

/-- The `voteScore` virtual of the schema:
`this.upvotes.length - this.downvotes.length`. -/
def voteScore (c : Comment) : Int :=
  (c.upvotes.length : Int) - (c.downvotes.length : Int)

/-- The schema's `trim: true` (JavaScript `String.prototype.trim`): leading
and trailing whitespace removed, modelled structurally on the character
list. -/
def strTrim (s : String) : String :=
  ⟨((s.data.dropWhile fun ch => ch.isWhitespace).reverse.dropWhile
      fun ch => ch.isWhitespace).reverse⟩

/-- Schema validation run by mongoose on `save`: `content` is trimmed, is
required (so nonempty after trimming) and is at most 1000 characters. -/
def contentValid (content : String) : Bool :=
  1 ≤ (strTrim content).length && (strTrim content).length ≤ 1000

/-- A freshly constructed `new Comment({...})` after a successful `save`:
content trimmed by the schema, empty vote arrays, `isEdited` false, both
timestamps set to the creation instant. -/
def mkComment (id : Nat) (content : String) (author blog : Nat)
    (parentComment : Option Nat) (now : Nat) : Comment :=
  ⟨id, strTrim content, author, blog, parentComment, [], [], false, now, now⟩

/-- `Comment.findById(id)` over the modelled collection. -/
def findComment (store : List Comment) (id : Nat) : Option Comment :=
  store.find? (fun c => c.id == id)

/-- `comment.save()` for a document that is already stored: the entry with
the same `_id` is overwritten. -/
def replaceComment (store : List Comment) (c' : Comment) : List Comment :=
  store.map (fun c => if c.id == c'.id then c' else c)

/-- The vote toggle that appears verbatim both in `voteComment`
(`comment.controller.js`) and in the `vote-comment` socket handler:
reads `hasUpvoted`/`hasDownvoted` with `includes`, then pushes to or filters
the `upvotes`/`downvotes` arrays.  A `voteType` that is neither `upvote` nor
`downvote` falls through both branches and leaves the document unchanged. -/
def applyVote (c : Comment) (userId : Nat) (voteType : String) : Comment :=
  let hasUpvoted := c.upvotes.contains userId
  let hasDownvoted := c.downvotes.contains userId
  if voteType == "upvote" then
    if hasUpvoted then
      { c with upvotes := c.upvotes.filter (fun i => i != userId) }
    else
      { c with
          upvotes := c.upvotes ++ [userId],
          downvotes :=
            if hasDownvoted then c.downvotes.filter (fun i => i != userId)
            else c.downvotes }
  else if voteType == "downvote" then
    if hasDownvoted then
      { c with downvotes := c.downvotes.filter (fun i => i != userId) }
    else
      { c with
          downvotes := c.downvotes ++ [userId],
          upvotes :=
            if hasUpvoted then c.upvotes.filter (fun i => i != userId)
            else c.upvotes }
  else c

/-- An event emitted to a socket.io room (`blog:<blogId>`); the first
component of each broadcast pair below is that blog id. -/
inductive SocketEvent where
  | commentCreated (comment : Comment) (parentId : Option Nat)
  | commentUpdated (comment : Comment)
  | commentDeleted (commentId : Nat)
  | commentVoted (commentId : Nat) (voteScore : Int) (upCount downCount : Nat)
deriving DecidableEq, Repr

/-- Outcome of one REST controller call: the collection afterwards, the HTTP
status of the response, and the socket emissions the controller performed. -/
structure RestResponse where
  store : List Comment
  status : Nat
  events : List (Nat × SocketEvent)
deriving DecidableEq, Repr

/-- Outcome of one socket handler call: the collection afterwards, the events
broadcast to the blog room, and the `comment-error` message sent to the
originating connection, if any. -/
structure SocketResponse where
  store : List Comment
  broadcast : List (Nat × SocketEvent)
  errMsg : Option String
deriving DecidableEq, Repr

/-- REST `createComment` (`comment.controller.js`): 404 if the blog does not
exist; if a parent id is supplied, 404 if no comment with that id exists (its
`parentComment` field is not inspected); then `save` runs schema validation
(500 on a `ValidationError`, which the controller catches generically) and
appends the new document.  The controller emits no socket events. -/
def restCreateComment (blogs : List Nat) (store : List Comment)
    (userId : Nat) (content : String) (blogId : Nat)
    (parentCommentId : Option Nat) (newId now : Nat) : RestResponse :=
  if blogs.contains blogId then
    match parentCommentId with
    | some pid =>
        match findComment store pid with
        | none => ⟨store, 404, []⟩
        | some _ =>
            if contentValid content then
              ⟨store ++ [mkComment newId content userId blogId (some pid) now],
               201, []⟩
            else ⟨store, 500, []⟩
    | none =>
        if contentValid content then
          ⟨store ++ [mkComment newId content userId blogId none now], 201, []⟩
        else ⟨store, 500, []⟩
  else ⟨store, 404, []⟩

/-- REST `updateComment`: 404 if the comment is missing, 403 unless the
requester is the author or has the admin role, then sets `content`,
`isEdited = true`, `updatedAt = Date.now()` and saves (500 if the new content
fails schema validation).  No socket events. -/
def restUpdateComment (store : List Comment) (requesterId : Nat)
    (requesterRole : String) (id : Nat) (content : String) (now : Nat) :
    RestResponse :=
  match findComment store id with
  | none => ⟨store, 404, []⟩
  | some c =>
      if c.author != requesterId && requesterRole != "admin" then
        ⟨store, 403, []⟩
      else if contentValid content then
        ⟨replaceComment store
           { c with content := strTrim content, isEdited := true, updatedAt := now },
         200, []⟩
      else ⟨store, 500, []⟩

/-- REST `deleteComment`: 404 / 403 as for update; then
`Comment.deleteMany({ parentComment: id })` followed by
`Comment.findByIdAndDelete(id)`.  No socket events. -/
def restDeleteComment (store : List Comment) (requesterId : Nat)
    (requesterRole : String) (id : Nat) : RestResponse :=
  match findComment store id with
  | none => ⟨store, 404, []⟩
  | some c =>
      if c.author != requesterId && requesterRole != "admin" then
        ⟨store, 403, []⟩
      else
        ⟨(store.filter (fun x => x.parentComment != some id)).filter
            (fun x => x.id != id),
         200, []⟩

/-- REST `voteComment`: 400 unless `voteType` is `upvote` or `downvote`,
404 if the comment is missing, otherwise applies the vote toggle and saves.
No socket events. -/
def restVoteComment (store : List Comment) (requesterId : Nat) (id : Nat)
    (voteType : String) : RestResponse :=
  if voteType != "upvote" && voteType != "downvote" then ⟨store, 400, []⟩
  else
    match findComment store id with
    | none => ⟨store, 404, []⟩
    | some c => ⟨replaceComment store (applyVote c requesterId voteType), 200, []⟩

/-- Socket `new-comment` handler: constructs and saves the comment directly —
it checks neither that the blog exists nor that the parent comment exists;
only schema validation can fail (caught, answered with a `comment-error`).
On success it broadcasts `comment-created` to the blog room. -/
def socketNewComment (store : List Comment) (userId : Nat) (content : String)
    (blogId : Nat) (parentCommentId : Option Nat) (newId now : Nat) :
    SocketResponse :=
  if contentValid content then
    let nc := mkComment newId content userId blogId parentCommentId now
    ⟨store ++ [nc], [(blogId, .commentCreated nc parentCommentId)], none⟩
  else ⟨store, [], some "Failed to create comment"⟩

/-- Socket `update-comment` handler: same lookup/authorization/update logic
as the REST controller, answering with `comment-error` messages instead of
statuses, and broadcasting `comment-updated` to the comment's blog room on
success. -/
def socketUpdateComment (store : List Comment) (requesterId : Nat)
    (requesterRole : String) (commentId : Nat) (content : String) (now : Nat) :
    SocketResponse :=
  match findComment store commentId with
  | none => ⟨store, [], some "Comment not found"⟩
  | some c =>
      if c.author != requesterId && requesterRole != "admin" then
        ⟨store, [], some "Not authorized to update this comment"⟩
      else if contentValid content then
        let c' := { c with content := strTrim content, isEdited := true,
                           updatedAt := now }
        ⟨replaceComment store c', [(c.blog, .commentUpdated c')], none⟩
      else ⟨store, [], some "Failed to update comment"⟩

/-- Socket `delete-comment` handler: same logic as the REST controller, then
broadcasts `comment-deleted` to the blog room. -/
def socketDeleteComment (store : List Comment) (requesterId : Nat)
    (requesterRole : String) (commentId : Nat) : SocketResponse :=
  match findComment store commentId with
  | none => ⟨store, [], some "Comment not found"⟩
  | some c =>
      if c.author != requesterId && requesterRole != "admin" then
        ⟨store, [], some "Not authorized to delete this comment"⟩
      else
        ⟨(store.filter (fun x => x.parentComment != some commentId)).filter
            (fun x => x.id != commentId),
         [(c.blog, .commentDeleted commentId)], none⟩

/-- Socket `vote-comment` handler: same guard/lookup/toggle as the REST
controller, then broadcasts `comment-voted` with the new score and counts. -/
def socketVoteComment (store : List Comment) (requesterId : Nat)
    (commentId : Nat) (voteType : String) : SocketResponse :=
  if voteType != "upvote" && voteType != "downvote" then
    ⟨store, [], some "Invalid vote type"⟩
  else
    match findComment store commentId with
    | none => ⟨store, [], some "Comment not found"⟩
    | some c =>
        let c' := applyVote c requesterId voteType
        ⟨replaceComment store c',
         [(c.blog, .commentVoted c.id (voteScore c') c'.upvotes.length
             c'.downvotes.length)],
         none⟩

/-- The error kinds of the specification, used to compare the two transports'
rejections. -/
inductive ErrKind where
  | okKind | validationKind | notFoundKind | forbiddenKind | internalKind
deriving DecidableEq, Repr

/-- The error kind a REST status code denotes. -/
def restKind (r : RestResponse) : ErrKind :=
  if r.status == 404 then .notFoundKind
  else if r.status == 403 then .forbiddenKind
  else if r.status == 400 then .validationKind
  else if r.status == 500 then .internalKind
  else .okKind

/-- The error kind a socket `comment-error` message denotes. -/
def socketKind (r : SocketResponse) : ErrKind :=
  match r.errMsg with
  | none => .okKind
  | some m =>
      if m == "Comment not found" then .notFoundKind
      else if m == "Not authorized to update this comment"
              || m == "Not authorized to delete this comment" then
        .forbiddenKind
      else if m == "Invalid vote type" then .validationKind
      else .internalKind

/-- The read half of a vote request as the code performs it:
`Comment.findById` takes a snapshot of the whole document's vote arrays. -/
def readVoteArrays (store : List Comment) (id : Nat) :
    Option (List Nat × List Nat) :=
  (findComment store id).map (fun c => (c.upvotes, c.downvotes))

/-- The write half of a vote request: `comment.save()` writes the in-memory
vote arrays back, overwriting whatever the stored document holds. -/
def saveVoteArrays (store : List Comment) (id : Nat)
    (p : List Nat × List Nat) : List Comment :=
  store.map (fun c => if c.id == id then
      { c with upvotes := p.1, downvotes := p.2 } else c)

/-- The per-(comment,user) vote state observed from the ledgers. -/
inductive VState where
  | vnone | vup | vdown
deriving DecidableEq, Repr

/-- Which vote a user currently holds on a comment, read off the two
membership arrays the way the handlers do (`includes`). -/
def userVoteState (c : Comment) (u : Nat) : VState :=
  if c.upvotes.contains u then .vup
  else if c.downvotes.contains u then .vdown
  else .vnone

/-- The two vote inputs of the protocol. -/
inductive VoteType where
  | upvote | downvote
deriving DecidableEq, Repr

/-- The wire string for a vote input. -/
def voteTypeStr : VoteType → String
  | .upvote => "upvote"
  | .downvote => "downvote"

/-- Modelled from the spec: the per-(comment,user) vote transition table of
§4.1 (states none/upvoted/downvoted, inputs upvote/downvote), stated for
comparison with the code's `applyVote`. -/
def specVoteTransition : VState → VoteType → VState
  | .vnone, .upvote => .vup
  | .vup, .upvote => .vnone
  | .vdown, .upvote => .vup
  | .vnone, .downvote => .vdown
  | .vdown, .downvote => .vnone
  | .vup, .downvote => .vdown

/-- A comment as the client reconciler holds it (`CommentType` in
`CommentSection.tsx`); only the fields the realtime listeners touch are
carried, and `replies` is optional exactly as in the TypeScript type. -/
inductive CComment : Type where
  | mk (id : Nat) (content : String) (isEdited : Bool) (voteScore : Int)
       (replies : Option (List CComment))

/-- The `_id` field. -/
def CComment.id : CComment → Nat
  | .mk i _ _ _ _ => i

/-- The optional `replies` field. -/
def CComment.replies : CComment → Option (List CComment)
  | .mk _ _ _ _ r => r

/-- The spread `{...c, replies: rs}` of the listener. -/
def CComment.setReplies : CComment → List CComment → CComment
  | .mk i s e v _, rs => .mk i s e v (some rs)

/-- The `comment-created` listener of `CommentSection.tsx`: with no parent id
the new comment is prepended; with a parent id every top-level comment whose
`_id` equals it gets the new comment appended to `replies`
(`[...(c.replies || []), comment]`), and a non-matching parent id leaves the
list unchanged. -/
def onCommentCreated (prev : List CComment) (comment : CComment)
    (parentId : Option Nat) : List CComment :=
  match parentId with
  | none => comment :: prev
  | some pid =>
      prev.map (fun c =>
        if c.id == pid then c.setReplies ((c.replies.getD []) ++ [comment])
        else c)

/-- The stores of the comment collection reachable from empty by the
create/update/delete/vote operations of either transport. -/
inductive Reachable : List Comment → Prop where
  | init : Reachable []
  | createR (blogs : List Nat) (s : List Comment) (uid : Nat) (content : String)
      (bid : Nat) (pid : Option Nat) (nid now : Nat) : Reachable s →
      Reachable (restCreateComment blogs s uid content bid pid nid now).store
  | updateR (s : List Comment) (rq : Nat) (role : String) (id : Nat)
      (content : String) (now : Nat) : Reachable s →
      Reachable (restUpdateComment s rq role id content now).store
  | deleteR (s : List Comment) (rq : Nat) (role : String) (id : Nat) :
      Reachable s → Reachable (restDeleteComment s rq role id).store
  | voteR (s : List Comment) (rq : Nat) (id : Nat) (vt : String) :
      Reachable s → Reachable (restVoteComment s rq id vt).store
  | createS (s : List Comment) (uid : Nat) (content : String) (bid : Nat)
      (pid : Option Nat) (nid now : Nat) : Reachable s →
      Reachable (socketNewComment s uid content bid pid nid now).store
  | updateS (s : List Comment) (rq : Nat) (role : String) (id : Nat)
      (content : String) (now : Nat) : Reachable s →
      Reachable (socketUpdateComment s rq role id content now).store
  | deleteS (s : List Comment) (rq : Nat) (role : String) (id : Nat) :
      Reachable s → Reachable (socketDeleteComment s rq role id).store
  | voteS (s : List Comment) (rq : Nat) (id : Nat) (vt : String) :
      Reachable s → Reachable (socketVoteComment s rq id vt).store

/-- The vote-ledger well-formedness of one comment: both arrays are
duplicate-free and no user appears in both. -/
def VoteInv (c : Comment) : Prop :=
  c.upvotes.Nodup ∧ c.downvotes.Nodup ∧ ∀ u, u ∈ c.upvotes → u ∉ c.downvotes

/-- All comments of a store have well-formed vote ledgers. -/
def StoreInv (s : List Comment) : Prop := ∀ c ∈ s, VoteInv c

lemma contains_iff (l : List Nat) (a : Nat) : l.contains a = true ↔ a ∈ l :=
  List.elem_iff

lemma mem_filter_ne (l : List Nat) (a x : Nat) :
    x ∈ l.filter (fun i => i != a) ↔ x ∈ l ∧ x ≠ a := by
  simp [List.mem_filter]

lemma not_mem_filter_ne (l : List Nat) (a : Nat) :
    a ∉ l.filter (fun i => i != a) := by
  simp [List.mem_filter]

lemma filter_ne_of_not_mem (l : List Nat) (a : Nat) (h : a ∉ l) :
    l.filter (fun i => i != a) = l :=
  List.filter_eq_self.mpr fun x hx => bne_iff_ne.mpr fun e => h (e ▸ hx)

lemma nodup_append_singleton (l : List Nat) (a : Nat) (h : l.Nodup)
    (ha : a ∉ l) : (l ++ [a]).Nodup := by
  rw [List.nodup_append]
  exact ⟨h, List.nodup_singleton a, fun x hx hxa => ha ((List.mem_singleton.mp hxa) ▸ hx)⟩

/-- The vote toggle preserves vote-ledger well-formedness. -/
lemma applyVote_voteInv (c : Comment) (u : Nat) (vt : String)
    (h : VoteInv c) : VoteInv (applyVote c u vt) := by
  obtain ⟨hu, hd, hdisj⟩ := h
  unfold applyVote
  by_cases hvtu : vt = "upvote"
  · by_cases hup : u ∈ c.upvotes
    · simp only [hvtu, beq_self_eq_true, if_true, (contains_iff _ _).mpr hup]
      exact ⟨hu.filter _, hd, fun x hx => hdisj x ((mem_filter_ne _ _ _).mp hx).1⟩
    · have hupc : c.upvotes.contains u = false := by
        simp [List.contains, List.elem_eq_mem, hup]
      by_cases hdn : u ∈ c.downvotes
      · simp only [hvtu, beq_self_eq_true, if_true, hupc,
          (contains_iff _ _).mpr hdn, Bool.false_eq_true, if_false]
        refine ⟨nodup_append_singleton _ _ hu hup, hd.filter _, ?_⟩
        intro x hx hxd
        rcases List.mem_append.mp hx with hx | hx
        · exact hdisj x hx ((mem_filter_ne _ _ _).mp hxd).1
        · have : x = u := List.mem_singleton.mp hx
          exact not_mem_filter_ne _ _ (this ▸ hxd)
      · have hdnc : c.downvotes.contains u = false := by
          simp [List.contains, List.elem_eq_mem, hdn]
        simp only [hvtu, beq_self_eq_true, if_true, hupc, hdnc,
          Bool.false_eq_true, if_false]
        refine ⟨nodup_append_singleton _ _ hu hup, hd, ?_⟩
        intro x hx hxd
        rcases List.mem_append.mp hx with hx | hx
        · exact hdisj x hx hxd
        · exact hdn ((List.mem_singleton.mp hx) ▸ hxd)
  · have hvtu' : (vt == "upvote") = false := by
      simp [hvtu]
    by_cases hvtd : vt = "downvote"
    · by_cases hdn : u ∈ c.downvotes
      · simp only [hvtu', Bool.false_eq_true, if_false, hvtd, beq_self_eq_true,
          if_true, (contains_iff _ _).mpr hdn]
        exact ⟨hu, hd.filter _, fun x hx hxd =>
          hdisj x hx ((mem_filter_ne _ _ _).mp hxd).1⟩
      · have hdnc : c.downvotes.contains u = false := by
          simp [List.contains, List.elem_eq_mem, hdn]
        by_cases hup : u ∈ c.upvotes
        · simp only [hvtu', Bool.false_eq_true, if_false, hvtd, beq_self_eq_true,
            if_true, hdnc, (contains_iff _ _).mpr hup]
          refine ⟨hu.filter _, nodup_append_singleton _ _ hd hdn, ?_⟩
          intro x hx hxd
          rcases List.mem_append.mp hxd with hxd | hxd
          · exact hdisj x ((mem_filter_ne _ _ _).mp hx).1 hxd
          · exact not_mem_filter_ne _ _ (((List.mem_singleton.mp hxd) ▸ hx))
        · have hupc : c.upvotes.contains u = false := by
            simp [List.contains, List.elem_eq_mem, hup]
          simp only [hvtu', Bool.false_eq_true, if_false, hvtd, beq_self_eq_true,
            if_true, hdnc, hupc]
          refine ⟨hu, nodup_append_singleton _ _ hd hdn, ?_⟩
          intro x hx hxd
          rcases List.mem_append.mp hxd with hxd | hxd
          · exact hdisj x hx hxd
          · exact hup ((List.mem_singleton.mp hxd) ▸ hx)
    · have hvtd' : (vt == "downvote") = false := by
        simp [hvtd]
      simp only [hvtu', hvtd', Bool.false_eq_true, if_false]
      exact ⟨hu, hd, hdisj⟩

lemma storeInv_append_mk (s : List Comment) (id : Nat) (content : String)
    (author blog : Nat) (pid : Option Nat) (now : Nat) (h : StoreInv s) :
    StoreInv (s ++ [mkComment id content author blog pid now]) := by
  intro x hx
  rcases List.mem_append.mp hx with hx | hx
  · exact h x hx
  · have : x = mkComment id content author blog pid now := List.mem_singleton.mp hx
    subst this
    exact ⟨List.nodup_nil, List.nodup_nil, by intro u hu; cases hu⟩

lemma storeInv_replace (s : List Comment) (c' : Comment) (h : StoreInv s)
    (hc' : VoteInv c') : StoreInv (replaceComment s c') := by
  intro x hx
  rcases List.mem_map.mp hx with ⟨y, hy, hyx⟩
  by_cases hid : y.id == c'.id
  · simp only [replaceComment, hid, if_true] at hyx
    exact hyx ▸ hc'
  · simp only [replaceComment, hid, Bool.false_eq_true, if_false] at hyx
    exact hyx ▸ h y hy

lemma storeInv_filter (s : List Comment) (p : Comment → Bool)
    (h : StoreInv s) : StoreInv (s.filter p) :=
  fun x hx => h x (List.mem_filter.mp hx).1

lemma voteInv_update_fields (c : Comment) (content : String) (now : Nat)
    (h : VoteInv c) :
    VoteInv { c with content := content, isEdited := true, updatedAt := now } := h

lemma restCreateComment_storeInv (blogs : List Nat) (s : List Comment)
    (uid : Nat) (content : String) (bid : Nat) (pid : Option Nat)
    (nid now : Nat) (h : StoreInv s) :
    StoreInv (restCreateComment blogs s uid content bid pid nid now).store := by
  unfold restCreateComment
  split
  · split
    · split
      · exact h
      · split
        · exact storeInv_append_mk _ _ _ _ _ _ _ h
        · exact h
    · split
      · exact storeInv_append_mk _ _ _ _ _ _ _ h
      · exact h
  · exact h

lemma socketNewComment_storeInv (s : List Comment) (uid : Nat)
    (content : String) (bid : Nat) (pid : Option Nat) (nid now : Nat)
    (h : StoreInv s) :
    StoreInv (socketNewComment s uid content bid pid nid now).store := by
  unfold socketNewComment
  split
  · exact storeInv_append_mk _ _ _ _ _ _ _ h
  · exact h

lemma restUpdateComment_storeInv (s : List Comment) (rq : Nat) (role : String)
    (id : Nat) (content : String) (now : Nat) (h : StoreInv s) :
    StoreInv (restUpdateComment s rq role id content now).store := by
  unfold restUpdateComment
  split
  · exact h
  case _ c heq =>
    split
    · exact h
    · split
      · exact storeInv_replace _ _ h
          (h c (List.mem_of_find?_eq_some heq))
      · exact h

lemma socketUpdateComment_storeInv (s : List Comment) (rq : Nat)
    (role : String) (id : Nat) (content : String) (now : Nat)
    (h : StoreInv s) :
    StoreInv (socketUpdateComment s rq role id content now).store := by
  unfold socketUpdateComment
  split
  · exact h
  case _ c heq =>
    split
    · exact h
    · split
      · exact storeInv_replace _ _ h
          (h c (List.mem_of_find?_eq_some heq))
      · exact h

lemma restDeleteComment_storeInv (s : List Comment) (rq : Nat) (role : String)
    (id : Nat) (h : StoreInv s) :
    StoreInv (restDeleteComment s rq role id).store := by
  unfold restDeleteComment
  split
  · exact h
  · split
    · exact h
    · exact storeInv_filter _ _ (storeInv_filter _ _ h)

lemma socketDeleteComment_storeInv (s : List Comment) (rq : Nat)
    (role : String) (id : Nat) (h : StoreInv s) :
    StoreInv (socketDeleteComment s rq role id).store := by
  unfold socketDeleteComment
  split
  · exact h
  · split
    · exact h
    · exact storeInv_filter _ _ (storeInv_filter _ _ h)

lemma restVoteComment_storeInv (s : List Comment) (rq : Nat) (id : Nat)
    (vt : String) (h : StoreInv s) :
    StoreInv (restVoteComment s rq id vt).store := by
  unfold restVoteComment
  split
  · exact h
  · split
    · exact h
    case _ c heq =>
      exact storeInv_replace _ _ h
        (applyVote_voteInv _ _ _ (h c (List.mem_of_find?_eq_some heq)))

lemma socketVoteComment_storeInv (s : List Comment) (rq : Nat) (id : Nat)
    (vt : String) (h : StoreInv s) :
    StoreInv (socketVoteComment s rq id vt).store := by
  unfold socketVoteComment
  split
  · exact h
  · split
    · exact h
    case _ c heq =>
      exact storeInv_replace _ _ h
        (applyVote_voteInv _ _ _ (h c (List.mem_of_find?_eq_some heq)))

/-- Every reachable store satisfies the vote-ledger invariant. -/
lemma reachable_storeInv (s : List Comment) (h : Reachable s) : StoreInv s := by
  induction h with
  | init => intro c hc; cases hc
  | createR blogs s uid content bid pid nid now _ ih =>
      exact restCreateComment_storeInv blogs s uid content bid pid nid now ih
  | updateR s rq role id content now _ ih =>
      exact restUpdateComment_storeInv s rq role id content now ih
  | deleteR s rq role id _ ih => exact restDeleteComment_storeInv s rq role id ih
  | voteR s rq id vt _ ih => exact restVoteComment_storeInv s rq id vt ih
  | createS s uid content bid pid nid now _ ih =>
      exact socketNewComment_storeInv s uid content bid pid nid now ih
  | updateS s rq role id content now _ ih =>
      exact socketUpdateComment_storeInv s rq role id content now ih
  | deleteS s rq role id _ ih => exact socketDeleteComment_storeInv s rq role id ih
  | voteS s rq id vt _ ih => exact socketVoteComment_storeInv s rq id vt ih

lemma update_transport_parity (s : List Comment) (rq : Nat) (role : String)
    (id : Nat) (content : String) (now : Nat) :
    (restUpdateComment s rq role id content now).store
      = (socketUpdateComment s rq role id content now).store
    ∧ restKind (restUpdateComment s rq role id content now)
      = socketKind (socketUpdateComment s rq role id content now) := by
  unfold restUpdateComment socketUpdateComment
  cases hf : findComment s id with
  | none => exact ⟨rfl, rfl⟩
  | some c =>
      dsimp only
      split
      · exact ⟨rfl, rfl⟩
      · split
        · exact ⟨rfl, rfl⟩
        · exact ⟨rfl, rfl⟩

lemma delete_transport_parity (s : List Comment) (rq : Nat) (role : String)
    (id : Nat) :
    (restDeleteComment s rq role id).store
      = (socketDeleteComment s rq role id).store
    ∧ restKind (restDeleteComment s rq role id)
      = socketKind (socketDeleteComment s rq role id) := by
  unfold restDeleteComment socketDeleteComment
  cases hf : findComment s id with
  | none => exact ⟨rfl, rfl⟩
  | some c =>
      dsimp only
      split
      · exact ⟨rfl, rfl⟩
      · exact ⟨rfl, rfl⟩

lemma vote_transport_parity (s : List Comment) (rq : Nat) (id : Nat)
    (vt : String) :
    (restVoteComment s rq id vt).store = (socketVoteComment s rq id vt).store
    ∧ restKind (restVoteComment s rq id vt)
      = socketKind (socketVoteComment s rq id vt) := by
  unfold restVoteComment socketVoteComment
  split
  · exact ⟨rfl, rfl⟩
  · cases hf : findComment s id with
    | none => exact ⟨rfl, rfl⟩
    | some c => exact ⟨rfl, rfl⟩

lemma contains_eq_false (l : List Nat) (a : Nat) (h : a ∉ l) :
    l.contains a = false := by
  simp [List.contains, List.elem_eq_mem, h]

lemma contains_filter_ne_self (l : List Nat) (a : Nat) :
    (l.filter (fun i => i != a)).contains a = false :=
  contains_eq_false _ _ (not_mem_filter_ne l a)

lemma contains_append_singleton (l : List Nat) (a : Nat) :
    (l ++ [a]).contains a = true := by
  simp [List.contains, List.elem_eq_mem]

/-- C1: a single vote call performs exactly the deterministic transition of
the spec's per-(comment,user) state machine, and both transports produce the
same store. -/
theorem vote_single_call_is_spec_transition (s : List Comment) (c : Comment)
    (u cid : Nat) (vt : VoteType)
    (hdisj : ¬(u ∈ c.upvotes ∧ u ∈ c.downvotes)) :
    userVoteState (applyVote c u (voteTypeStr vt)) u
      = specVoteTransition (userVoteState c u) vt
    ∧ (restVoteComment s u cid (voteTypeStr vt)).store
      = (socketVoteComment s u cid (voteTypeStr vt)).store := by
  refine ⟨?_, (vote_transport_parity s u cid (voteTypeStr vt)).1⟩
  cases vt with
  | upvote =>
      by_cases hup : u ∈ c.upvotes
      · have hdn : u ∉ c.downvotes := fun hd => hdisj ⟨hup, hd⟩
        simp [voteTypeStr, applyVote, userVoteState, specVoteTransition,
          hup, hdn, List.mem_filter, List.mem_append, List.mem_singleton]
      · by_cases hdn : u ∈ c.downvotes
        · simp [voteTypeStr, applyVote, userVoteState, specVoteTransition,
            hup, hdn, List.mem_filter, List.mem_append, List.mem_singleton]
        · simp [voteTypeStr, applyVote, userVoteState, specVoteTransition,
            hup, hdn, List.mem_filter, List.mem_append, List.mem_singleton]
  | downvote =>
      by_cases hdn : u ∈ c.downvotes
      · have hup : u ∉ c.upvotes := fun hu => hdisj ⟨hu, hdn⟩
        simp [voteTypeStr, applyVote, userVoteState, specVoteTransition,
          hup, hdn, List.mem_filter, List.mem_append, List.mem_singleton]
      · by_cases hup : u ∈ c.upvotes
        · simp [voteTypeStr, applyVote, userVoteState, specVoteTransition,
            hup, hdn, List.mem_filter, List.mem_append, List.mem_singleton]
        · simp [voteTypeStr, applyVote, userVoteState, specVoteTransition,
            hup, hdn, List.mem_filter, List.mem_append, List.mem_singleton]

/-- Witness for C1: a fresh comment, user 4, one upvote call. -/
theorem vote_single_call_is_spec_transition_witness :
    userVoteState
        (applyVote ⟨1, "a", 9, 5, none, [], [], false, 0, 0⟩ 4
          (voteTypeStr .upvote)) 4
      = specVoteTransition
          (userVoteState ⟨1, "a", 9, 5, none, [], [], false, 0, 0⟩ 4) .upvote
    ∧ (restVoteComment [⟨1, "a", 9, 5, none, [], [], false, 0, 0⟩] 4 1
          (voteTypeStr .upvote)).store
      = (socketVoteComment [⟨1, "a", 9, 5, none, [], [], false, 0, 0⟩] 4 1
          (voteTypeStr .upvote)).store :=
  vote_single_call_is_spec_transition
    [⟨1, "a", 9, 5, none, [], [], false, 0, 0⟩]
    ⟨1, "a", 9, 5, none, [], [], false, 0, 0⟩ 4 1 .upvote (by simp)

/-- C8 fails as stated: if user 5 has already upvoted, two further upvote
calls leave the user upvoted, not vote-less. -/
theorem double_upvote_from_upvoted_not_none :
    (applyVote (applyVote ⟨1, "a", 9, 5, none, [5], [], false, 0, 0⟩ 5
          "upvote") 5 "upvote").upvotes.contains 5 = true
    ∧ userVoteState
        (applyVote (applyVote ⟨1, "a", 9, 5, none, [5], [], false, 0, 0⟩ 5
          "upvote") 5 "upvote") 5 ≠ .vnone := by
  decide

/-- C8 amended: if the user initially holds no vote on the comment, applying
the same vote call twice restores the comment exactly (so the pair returns to
the `none` state and the voteScore is restored). -/
theorem double_vote_roundtrip_from_none (c : Comment) (u : Nat) (vt : String)
    (hup : u ∉ c.upvotes) (hdn : u ∉ c.downvotes) :
    applyVote (applyVote c u vt) u vt = c := by
  by_cases h1 : vt = "upvote"
  · subst h1
    simp [applyVote, hup, hdn, List.mem_append, List.mem_singleton,
      List.filter_append, filter_ne_of_not_mem _ _ hup,
      filter_ne_of_not_mem _ _ hdn]
  · by_cases h2 : vt = "downvote"
    · subst h2
      simp [applyVote, hup, hdn, List.mem_append, List.mem_singleton,
        List.filter_append, filter_ne_of_not_mem _ _ hup,
        filter_ne_of_not_mem _ _ hdn, h1]
    · simp [applyVote, h1, h2]

/-- Witness for the amended C8: user 4, initially vote-less, double upvote. -/
theorem double_vote_roundtrip_from_none_witness :
    applyVote (applyVote ⟨1, "a", 9, 5, none, [7], [8], false, 0, 0⟩ 4
        "upvote") 4 "upvote"
      = ⟨1, "a", 9, 5, none, [7], [8], false, 0, 0⟩ :=
  double_vote_roundtrip_from_none ⟨1, "a", 9, 5, none, [7], [8], false, 0, 0⟩
    4 "upvote" (by decide) (by decide)

/-- C2: in every store reachable by create/update/delete/vote on either
transport, each comment's voteScore equals the number of distinct upvoters
minus the number of distinct downvoters, and no user id is in both the
upvotes and the downvotes of the same comment. -/
theorem reachable_voteScore_and_disjoint (s : List Comment) (h : Reachable s) :
    ∀ c ∈ s, voteScore c
        = (c.upvotes.dedup.length : Int) - (c.downvotes.dedup.length : Int)
      ∧ ∀ u, ¬(u ∈ c.upvotes ∧ u ∈ c.downvotes) := by
  intro c hc
  obtain ⟨hu, hd, hdisj⟩ := reachable_storeInv s h c hc
  refine ⟨?_, fun u hx => hdisj u hx.1 hx.2⟩
  rw [hu.dedup, hd.dedup]
  rfl

/-- Witness for C2: the store after one socket create. -/
theorem reachable_voteScore_and_disjoint_witness :
    voteScore (⟨1, "hi", 9, 5, none, [], [], false, 0, 0⟩ : Comment)
        = (((⟨1, "hi", 9, 5, none, [], [], false, 0, 0⟩ : Comment)).upvotes.dedup.length : Int)
          - (((⟨1, "hi", 9, 5, none, [], [], false, 0, 0⟩ : Comment)).downvotes.dedup.length : Int)
      ∧ ¬(3 ∈ (⟨1, "hi", 9, 5, none, [], [], false, 0, 0⟩ : Comment).upvotes
          ∧ 3 ∈ (⟨1, "hi", 9, 5, none, [], [], false, 0, 0⟩ : Comment).downvotes) := by
  have h := reachable_voteScore_and_disjoint _
    (Reachable.createS [] 9 "hi" 5 none 1 0 Reachable.init)
  have hm : (⟨1, "hi", 9, 5, none, [], [], false, 0, 0⟩ : Comment)
      ∈ (socketNewComment [] 9 "hi" 5 none 1 0).store := by
    decide
  exact ⟨(h _ hm).1, (h _ hm).2 3⟩

lemma findComment_append_cons (l₁ l₂ : List Comment) (c : Comment)
    (h : ∀ x ∈ l₁, x.id ≠ c.id) : findComment (l₁ ++ c :: l₂) c.id = some c := by
  unfold findComment
  rw [List.find?_append]
  have h1 : l₁.find? (fun x => x.id == c.id) = none :=
    List.find?_eq_none.mpr fun x hx => by simp [h x hx]
  rw [h1]
  show (c :: l₂).find? (fun x => x.id == c.id) = some c
  exact List.find?_cons_of_pos _ (by simp)

lemma length_filter_parent (l : List Comment) (cid : Nat) :
    (l.filter fun x => x.parentComment != some cid).length
      + (l.filter fun x => x.parentComment == some cid).length = l.length := by
  induction l with
  | nil => rfl
  | cons a t ih =>
      cases hb : a.parentComment == some cid
      · rw [List.filter_cons_of_pos (by simp [bne, hb]),
          List.filter_cons_of_neg (by simp [hb])]
        simp only [List.length_cons]
        omega
      · rw [List.filter_cons_of_neg (by simp [bne, hb]),
          List.filter_cons_of_pos (by simp [hb])]
        simp only [List.length_cons]
        omega

/-- C3 amended: deleting any existing comment (top-level or reply) removes
exactly N+1 entities, where N is the number of its direct replies in the
store. -/
theorem delete_removes_direct_replies_plus_one (l₁ l₂ : List Comment)
    (c : Comment) (rq : Nat) (role : String)
    (hl₁ : ∀ x ∈ l₁, x.id ≠ c.id) (hl₂ : ∀ x ∈ l₂, x.id ≠ c.id)
    (hself : c.parentComment ≠ some c.id)
    (hauth : c.author = rq ∨ role = "admin") :
    (restDeleteComment (l₁ ++ c :: l₂) rq role c.id).status = 200
    ∧ (restDeleteComment (l₁ ++ c :: l₂) rq role c.id).store.length
        + ((l₁ ++ c :: l₂).filter
            (fun x => x.parentComment == some c.id)).length + 1
      = (l₁ ++ c :: l₂).length := by
  have hA : (c.author != rq && role != "admin") = false := by
    rcases hauth with h | h <;> simp [h]
  unfold restDeleteComment
  rw [findComment_append_cons l₁ l₂ c hl₁]
  dsimp only
  simp only [hA, Bool.false_eq_true, if_false]
  refine ⟨trivial, ?_⟩
  have hstep1 : (l₁ ++ c :: l₂).filter (fun x => x.parentComment != some c.id)
      = l₁.filter (fun x => x.parentComment != some c.id)
        ++ c :: l₂.filter (fun x => x.parentComment != some c.id) := by
    rw [List.filter_append, List.filter_cons_of_pos (by simp [bne, hself])]
  have hstep2 : ∀ l : List Comment, (∀ x ∈ l, x.id ≠ c.id) →
      (l.filter (fun x => x.parentComment != some c.id)).filter
          (fun x => x.id != c.id)
        = l.filter (fun x => x.parentComment != some c.id) := by
    intro l hl
    exact List.filter_eq_self.mpr fun x hx => by
      simp [hl x (List.mem_filter.mp hx).1]
  rw [hstep1, List.filter_append, List.filter_cons_of_neg (by simp),
    hstep2 l₁ hl₁, hstep2 l₂ hl₂]
  have h1 := length_filter_parent l₁ c.id
  have h2 := length_filter_parent l₂ c.id
  rw [List.filter_append, List.filter_cons_of_neg (by simp [hself])]
  simp only [List.length_append, List.length_cons]
  omega

/-- Witness for the amended C3: a top-level comment 1 and its reply 2;
deleting reply 2 (no nested replies) removes exactly one entity. -/
theorem delete_removes_direct_replies_plus_one_witness :
    (restDeleteComment
        [⟨1, "a", 9, 5, none, [], [], false, 0, 0⟩,
         ⟨2, "b", 9, 5, some 1, [], [], false, 0, 0⟩] 9 "user" 2).status = 200
    ∧ (restDeleteComment
        [⟨1, "a", 9, 5, none, [], [], false, 0, 0⟩,
         ⟨2, "b", 9, 5, some 1, [], [], false, 0, 0⟩] 9 "user" 2).store.length
        + (([⟨1, "a", 9, 5, none, [], [], false, 0, 0⟩,
             ⟨2, "b", 9, 5, some 1, [], [], false, 0, 0⟩] : List Comment).filter
            (fun x => x.parentComment == some 2)).length + 1
      = ([⟨1, "a", 9, 5, none, [], [], false, 0, 0⟩,
          ⟨2, "b", 9, 5, some 1, [], [], false, 0, 0⟩] : List Comment).length :=
  delete_removes_direct_replies_plus_one
    [⟨1, "a", 9, 5, none, [], [], false, 0, 0⟩] []
    ⟨2, "b", 9, 5, some 1, [], [], false, 0, 0⟩ 9 "user"
    (by decide) (by decide) (by decide) (Or.inl rfl)

/-- C3 fails as stated: the code lets a reply acquire replies of its own, and
deleting such a reply removes it and its direct replies — here comment 2
(itself a reply to 1) has reply 3, and deleting 2 removes two entities, not
one. -/
theorem delete_reply_removes_more_than_one :
    (⟨2, "b", 9, 5, some 1, [], [], false, 0, 0⟩ : Comment).parentComment ≠ none
    ∧ (restDeleteComment
        [⟨1, "a", 9, 5, none, [], [], false, 0, 0⟩,
         ⟨2, "b", 9, 5, some 1, [], [], false, 0, 0⟩,
         ⟨3, "c", 9, 5, some 2, [], [], false, 0, 0⟩] 9 "user" 2).status = 200
    ∧ (restDeleteComment
        [⟨1, "a", 9, 5, none, [], [], false, 0, 0⟩,
         ⟨2, "b", 9, 5, some 1, [], [], false, 0, 0⟩,
         ⟨3, "c", 9, 5, some 2, [], [], false, 0, 0⟩] 9 "user" 2).store.length
      = 1 := by
  decide

/-- C4 fails as stated: comment 2 is a reply (its parentCommentId is 1), yet
creating a comment with parentId 2 succeeds with 201 and persists a new
document — the parent is only checked for existence. -/
theorem create_reply_to_reply_succeeds :
    (restCreateComment [5]
        [⟨1, "a", 9, 5, none, [], [], false, 0, 0⟩,
         ⟨2, "b", 9, 5, some 1, [], [], false, 0, 0⟩]
        7 "hi" 5 (some 2) 3 1).status = 201
    ∧ (restCreateComment [5]
        [⟨1, "a", 9, 5, none, [], [], false, 0, 0⟩,
         ⟨2, "b", 9, 5, some 1, [], [], false, 0, 0⟩]
        7 "hi" 5 (some 2) 3 1).store.length = 3
    ∧ (⟨2, "b", 9, 5, some 1, [], [], false, 0, 0⟩ : Comment).parentComment
        ≠ none := by
  decide

/-- C4 amended: with a parentId supplied, the REST create checks only that a
comment with that id exists — NotFound (404) and nothing persisted when it
does not, creation even when the parent is itself a reply when it does; the
socket create performs no parent check at all. -/
theorem create_parent_check_is_existence_only (blogs : List Nat)
    (store : List Comment) (uid : Nat) (content : String) (bid pid nid now : Nat)
    (hblog : blogs.contains bid = true) :
    ((findComment store pid).isSome = true → contentValid content = true →
      (restCreateComment blogs store uid content bid (some pid) nid now).status
          = 201
      ∧ (restCreateComment blogs store uid content bid (some pid) nid now).store
          = store ++ [mkComment nid content uid bid (some pid) now])
    ∧ (findComment store pid = none →
      (restCreateComment blogs store uid content bid (some pid) nid now).status
          = 404
      ∧ (restCreateComment blogs store uid content bid (some pid) nid now).store
          = store)
    ∧ (contentValid content = true →
      (socketNewComment store uid content bid (some pid) nid now).store
        = store ++ [mkComment nid content uid bid (some pid) now]) := by
  refine ⟨?_, ?_, ?_⟩
  · intro hp hc
    unfold restCreateComment
    cases hf : findComment store pid with
    | none => rw [hf] at hp; cases hp
    | some d =>
        simp only [hblog, if_true, hf, hc]
        exact ⟨trivial, trivial⟩
  · intro hp
    unfold restCreateComment
    simp only [hblog, if_true, hp]
    exact ⟨trivial, trivial⟩
  · intro hc
    unfold socketNewComment
    simp only [hc, if_true]

/-- Witness for the amended C4: parent 2 is a reply to 1 and exists, so the
create succeeds and appends the new comment. -/
theorem create_parent_check_is_existence_only_witness :
    (restCreateComment [5]
        [⟨1, "a", 9, 5, none, [], [], false, 0, 0⟩,
         ⟨2, "b", 9, 5, some 1, [], [], false, 0, 0⟩]
        7 "hi" 5 (some 2) 3 1).status = 201
    ∧ (restCreateComment [5]
        [⟨1, "a", 9, 5, none, [], [], false, 0, 0⟩,
         ⟨2, "b", 9, 5, some 1, [], [], false, 0, 0⟩]
        7 "hi" 5 (some 2) 3 1).store
      = [⟨1, "a", 9, 5, none, [], [], false, 0, 0⟩,
         ⟨2, "b", 9, 5, some 1, [], [], false, 0, 0⟩]
        ++ [mkComment 3 "hi" 7 5 (some 2) 1] :=
  (create_parent_check_is_existence_only [5]
    [⟨1, "a", 9, 5, none, [], [], false, 0, 0⟩,
     ⟨2, "b", 9, 5, some 1, [], [], false, 0, 0⟩]
    7 "hi" 5 2 3 1 (by decide)).1 (by decide) (by decide)

/-- C5: the vote path is `findById` (read the whole document), in-memory
mutation, `save` (write the arrays back), not an atomic set operation.  When
users 11 and 12 both upvote comment 1 and both reads happen before either
save, the second save overwrites the first and the final voteScore is 1; the
two votes applied one after the other give voteScore 2 — the first update is
lost. -/
theorem vote_read_modify_write_lost_update :
    readVoteArrays [⟨1, "a", 9, 5, none, [], [], false, 0, 0⟩] 1
        = some ([], [])
    ∧ (∀ c ∈ saveVoteArrays
          (saveVoteArrays [⟨1, "a", 9, 5, none, [], [], false, 0, 0⟩] 1
            ((applyVote ⟨1, "a", 9, 5, none, [], [], false, 0, 0⟩ 11
                "upvote").upvotes,
             (applyVote ⟨1, "a", 9, 5, none, [], [], false, 0, 0⟩ 11
                "upvote").downvotes)) 1
          ((applyVote ⟨1, "a", 9, 5, none, [], [], false, 0, 0⟩ 12
              "upvote").upvotes,
           (applyVote ⟨1, "a", 9, 5, none, [], [], false, 0, 0⟩ 12
              "upvote").downvotes),
        voteScore c = 1)
    ∧ (∀ c ∈ (restVoteComment
          (restVoteComment [⟨1, "a", 9, 5, none, [], [], false, 0, 0⟩]
            11 1 "upvote").store 12 1 "upvote").store,
        voteScore c = 2) := by
  decide

/-- C6 fails as stated: a create naming a blog that does not exist is
rejected with NotFound by the REST transport but accepted (and persisted) by
the socket transport. -/
theorem transport_create_validation_differs :
    restKind (restCreateComment [] [] 1 "hi" 5 none 10 0) = ErrKind.notFoundKind
    ∧ socketKind (socketNewComment [] 1 "hi" 5 none 10 0) = ErrKind.okKind
    ∧ (restCreateComment [] [] 1 "hi" 5 none 10 0).store = []
    ∧ (socketNewComment [] 1 "hi" 5 none 10 0).store ≠ [] := by
  decide

/-- C6 amended: update, delete and vote apply identical authorization and
validation on both transports (same store effect, same error kind); create
agrees only once the REST-side blog-existence and parent-existence checks
have passed — the socket create path performs neither check. -/
theorem transport_parity_amended :
    (∀ (s : List Comment) (rq : Nat) (role : String) (id : Nat)
        (content : String) (now : Nat),
      (restUpdateComment s rq role id content now).store
        = (socketUpdateComment s rq role id content now).store
      ∧ restKind (restUpdateComment s rq role id content now)
        = socketKind (socketUpdateComment s rq role id content now))
    ∧ (∀ (s : List Comment) (rq : Nat) (role : String) (id : Nat),
      (restDeleteComment s rq role id).store
        = (socketDeleteComment s rq role id).store
      ∧ restKind (restDeleteComment s rq role id)
        = socketKind (socketDeleteComment s rq role id))
    ∧ (∀ (s : List Comment) (rq id : Nat) (vt : String),
      (restVoteComment s rq id vt).store = (socketVoteComment s rq id vt).store
      ∧ restKind (restVoteComment s rq id vt)
        = socketKind (socketVoteComment s rq id vt))
    ∧ (∀ (blogs : List Nat) (s : List Comment) (uid : Nat) (content : String)
        (bid : Nat) (pid : Option Nat) (nid now : Nat),
      blogs.contains bid = true →
      (∀ p, pid = some p → (findComment s p).isSome = true) →
      (restCreateComment blogs s uid content bid pid nid now).store
        = (socketNewComment s uid content bid pid nid now).store
      ∧ restKind (restCreateComment blogs s uid content bid pid nid now)
        = socketKind (socketNewComment s uid content bid pid nid now)) := by
  refine ⟨fun s rq role id content now => update_transport_parity _ _ _ _ _ _,
    fun s rq role id => delete_transport_parity _ _ _ _,
    fun s rq id vt => vote_transport_parity _ _ _ _, ?_⟩
  intro blogs s uid content bid pid nid now hblog hpid
  unfold restCreateComment socketNewComment
  cases pid with
  | none =>
      cases hc : contentValid content with
      | true => simp only [hblog, if_true, hc]; exact ⟨trivial, rfl⟩
      | false =>
          simp only [hblog, if_true, hc, Bool.false_eq_true, if_false]
          exact ⟨trivial, rfl⟩
  | some p =>
      have hf : (findComment s p).isSome = true := hpid p rfl
      cases hfe : findComment s p with
      | none => rw [hfe] at hf; cases hf
      | some d =>
          cases hc : contentValid content with
          | true => simp only [hblog, if_true, hfe, hc]; exact ⟨trivial, rfl⟩
          | false =>
              simp only [hblog, if_true, hfe, hc, Bool.false_eq_true, if_false]
              exact ⟨trivial, rfl⟩

/-- Witness for the amended C6: a concrete create for which both transports
accept and agree. -/
theorem transport_parity_amended_witness :
    (restCreateComment [5] [] 1 "hi" 5 none 10 0).store
      = (socketNewComment [] 1 "hi" 5 none 10 0).store
    ∧ restKind (restCreateComment [5] [] 1 "hi" 5 none 10 0)
      = socketKind (socketNewComment [] 1 "hi" 5 none 10 0) :=
  transport_parity_amended.2.2.2 [5] [] 1 "hi" 5 none 10 0 (by decide)
    (fun p hp => by cases hp)

/-- C7 fails as stated: a successful create through the REST fallback emits
no event at all, while the same create over the socket transport broadcasts
`comment-created` to the blog room. -/
theorem rest_success_no_broadcast :
    (restCreateComment [5] [] 9 "hi" 5 none 1 0).status = 201
    ∧ (restCreateComment [5] [] 9 "hi" 5 none 1 0).events = []
    ∧ (socketNewComment [] 9 "hi" 5 none 1 0).broadcast ≠ [] := by
  decide

/-- C7 amended: only socket-submitted mutations are broadcast; the four REST
controllers emit no events on any input, while a successful socket create
broadcasts `comment-created` to the blog's room. -/
theorem broadcast_only_on_socket :
    (∀ (blogs : List Nat) (s : List Comment) (uid : Nat) (content : String)
        (bid : Nat) (pid : Option Nat) (nid now : Nat),
      (restCreateComment blogs s uid content bid pid nid now).events = [])
    ∧ (∀ (s : List Comment) (rq : Nat) (role : String) (id : Nat)
        (content : String) (now : Nat),
      (restUpdateComment s rq role id content now).events = [])
    ∧ (∀ (s : List Comment) (rq : Nat) (role : String) (id : Nat),
      (restDeleteComment s rq role id).events = [])
    ∧ (∀ (s : List Comment) (rq id : Nat) (vt : String),
      (restVoteComment s rq id vt).events = [])
    ∧ (∀ (s : List Comment) (uid : Nat) (content : String) (bid : Nat)
        (pid : Option Nat) (nid now : Nat), contentValid content = true →
      (socketNewComment s uid content bid pid nid now).broadcast
        = [(bid, .commentCreated (mkComment nid content uid bid pid now) pid)]) := by
  refine ⟨?_, ?_, ?_, ?_, ?_⟩
  · intro blogs s uid content bid pid nid now
    unfold restCreateComment
    repeat' first | rfl | split
  · intro s rq role id content now
    unfold restUpdateComment
    repeat' first | rfl | split
  · intro s rq role id
    unfold restDeleteComment
    repeat' first | rfl | split
  · intro s rq id vt
    unfold restVoteComment
    repeat' first | rfl | split
  · intro s uid content bid pid nid now hc
    unfold socketNewComment
    simp only [hc, if_true]

/-- Witness for the amended C7: concrete REST create emitting nothing and
concrete socket create broadcasting the created event. -/
theorem broadcast_only_on_socket_witness :
    (restCreateComment [5] [] 9 "hi" 5 none 1 0).events = []
    ∧ (socketNewComment [] 9 "hi" 5 none 1 0).broadcast
      = [(5, .commentCreated (mkComment 1 "hi" 9 5 none 0) none)] :=
  ⟨broadcast_only_on_socket.1 [5] [] 9 "hi" 5 none 1 0,
   broadcast_only_on_socket.2.2.2.2 [] 9 "hi" 5 none 1 0 (by decide)⟩

lemma map_id_of {α : Type} (l : List α) (f : α → α) (h : ∀ a ∈ l, f a = a) :
    l.map f = l := by
  induction l with
  | nil => rfl
  | cons a t ih =>
      rw [List.map_cons, h a (List.mem_cons_self a t),
        ih fun x hx => h x (List.mem_cons_of_mem a hx)]

/-- C9: the `comment-created` listener prepends a parentless comment, appends
a comment whose parentId names a unique local top-level comment to that
comment's replies, and leaves the tree unchanged when the parentId matches no
local comment. -/
theorem reconciler_created_cases (prev l₁ l₂ : List CComment)
    (newC t : CComment) (pid : Nat) :
    (onCommentCreated prev newC none = newC :: prev)
    ∧ (prev = l₁ ++ t :: l₂ → t.id = pid → (∀ x ∈ l₁, x.id ≠ pid) →
        (∀ x ∈ l₂, x.id ≠ pid) →
        onCommentCreated prev newC (some pid)
          = l₁ ++ (t.setReplies ((t.replies.getD []) ++ [newC])) :: l₂)
    ∧ ((∀ x ∈ prev, x.id ≠ pid
          ∧ ∀ r ∈ x.replies.getD [], r.id ≠ pid) →
        onCommentCreated prev newC (some pid) = prev) := by
  refine ⟨rfl, ?_, ?_⟩
  · intro hsplit htid hl₁ hl₂
    subst hsplit
    unfold onCommentCreated
    dsimp only
    rw [List.map_append, List.map_cons]
    rw [map_id_of _ _ (fun x hx => by simp [hl₁ x hx]),
      map_id_of _ _ (fun x hx => by simp [hl₂ x hx])]
    simp [htid]
  · intro hnone
    unfold onCommentCreated
    dsimp only
    exact map_id_of _ _ (fun x hx => by simp [(hnone x hx).1])

/-- Witness for C9: one top-level comment (id 1); a parentless create, a
create with parentId 1, and a create with unknown parentId 9. -/
theorem reconciler_created_cases_witness :
    onCommentCreated [CComment.mk 1 "x" false 0 none]
        (CComment.mk 2 "y" false 0 none) none
      = [CComment.mk 2 "y" false 0 none, CComment.mk 1 "x" false 0 none]
    ∧ onCommentCreated [CComment.mk 1 "x" false 0 none]
        (CComment.mk 2 "y" false 0 none) (some 1)
      = [] ++ ((CComment.mk 1 "x" false 0 none).setReplies
          (((CComment.mk 1 "x" false 0 none).replies.getD [])
            ++ [CComment.mk 2 "y" false 0 none])) :: []
    ∧ onCommentCreated [CComment.mk 1 "x" false 0 none]
        (CComment.mk 2 "y" false 0 none) (some 9)
      = [CComment.mk 1 "x" false 0 none] := by
  have h := reconciler_created_cases [CComment.mk 1 "x" false 0 none] [] []
    (CComment.mk 2 "y" false 0 none) (CComment.mk 1 "x" false 0 none) 1
  have h9 := reconciler_created_cases [CComment.mk 1 "x" false 0 none] [] []
    (CComment.mk 2 "y" false 0 none) (CComment.mk 1 "x" false 0 none) 9
  refine ⟨h.1, h.2.1 rfl rfl (fun x hx => absurd hx (List.not_mem_nil x))
    (fun x hx => absurd hx (List.not_mem_nil x)), h9.2.2 ?_⟩
  intro x hx
  rw [List.mem_singleton.mp hx]
  exact ⟨by decide, fun r hr => absurd hr (List.not_mem_nil r)⟩

lemma replaceComment_append_cons (l₁ l₂ : List Comment) (c c' : Comment)
    (hid : c'.id = c.id) (h1 : ∀ x ∈ l₁, x.id ≠ c.id)
    (h2 : ∀ x ∈ l₂, x.id ≠ c.id) :
    replaceComment (l₁ ++ c :: l₂) c' = l₁ ++ c' :: l₂ := by
  unfold replaceComment
  rw [List.map_append, List.map_cons]
  rw [map_id_of _ _ (fun x hx => by simp [hid, h1 x hx]),
    map_id_of _ _ (fun x hx => by simp [hid, h2 x hx])]
  simp [hid]

/-- C10: a successful update on either transport replaces exactly the target
comment's content (trimmed), isEdited and updatedAt, carrying every other
field over unchanged, and leaves every other comment in the store
untouched. -/
theorem update_frame (l₁ l₂ : List Comment) (c : Comment) (rq : Nat)
    (role : String) (content : String) (now : Nat)
    (h1 : ∀ x ∈ l₁, x.id ≠ c.id) (h2 : ∀ x ∈ l₂, x.id ≠ c.id)
    (hauth : c.author = rq ∨ role = "admin")
    (hc : contentValid content = true) :
    (restUpdateComment (l₁ ++ c :: l₂) rq role c.id content now).status = 200
    ∧ (restUpdateComment (l₁ ++ c :: l₂) rq role c.id content now).store
      = l₁ ++ { c with content := strTrim content, isEdited := true,
                       updatedAt := now } :: l₂
    ∧ (socketUpdateComment (l₁ ++ c :: l₂) rq role c.id content now).store
      = l₁ ++ { c with content := strTrim content, isEdited := true,
                       updatedAt := now } :: l₂ := by
  have hA : (c.author != rq && role != "admin") = false := by
    rcases hauth with h | h <;> simp [h]
  have hrepl := replaceComment_append_cons l₁ l₂ c
    { c with content := strTrim content, isEdited := true, updatedAt := now }
    rfl h1 h2
  unfold restUpdateComment socketUpdateComment
  rw [findComment_append_cons l₁ l₂ c h1]
  dsimp only
  simp only [hA, Bool.false_eq_true, if_false, hc, if_true]
  exact ⟨trivial, hrepl, hrepl⟩

/-- Witness for C10: store with the single comment 1, updated by its author. -/
theorem update_frame_witness :
    (restUpdateComment ([] ++ (⟨1, "a", 9, 5, none, [2], [3], false, 0, 0⟩ : Comment) :: [])
        9 "user" (⟨1, "a", 9, 5, none, [2], [3], false, 0, 0⟩ : Comment).id
        " new " 7).status = 200
    ∧ (restUpdateComment ([] ++ (⟨1, "a", 9, 5, none, [2], [3], false, 0, 0⟩ : Comment) :: [])
        9 "user" (⟨1, "a", 9, 5, none, [2], [3], false, 0, 0⟩ : Comment).id
        " new " 7).store
      = [] ++ { (⟨1, "a", 9, 5, none, [2], [3], false, 0, 0⟩ : Comment) with
                  content := strTrim " new ", isEdited := true,
                  updatedAt := 7 } :: []
    ∧ (socketUpdateComment ([] ++ (⟨1, "a", 9, 5, none, [2], [3], false, 0, 0⟩ : Comment) :: [])
        9 "user" (⟨1, "a", 9, 5, none, [2], [3], false, 0, 0⟩ : Comment).id
        " new " 7).store
      = [] ++ { (⟨1, "a", 9, 5, none, [2], [3], false, 0, 0⟩ : Comment) with
                  content := strTrim " new ", isEdited := true,
                  updatedAt := 7 } :: [] :=
  update_frame [] [] ⟨1, "a", 9, 5, none, [2], [3], false, 0, 0⟩ 9 "user"
    " new " 7 (fun x hx => absurd hx (List.not_mem_nil x))
    (fun x hx => absurd hx (List.not_mem_nil x)) (Or.inl rfl) (by decide)

end BlogBackend
